import Mathlib

/-
Verification of the IAP authentication module (`src/prefect/client/iap_auth.py`).

Shallow embedding:
* `ManagerState` embeds the mutable fields of the `IAPTokenManager` singleton
  (`_cached_token`, `_token_expiry`, `_credentials`, `_client_id`).
* `Env` packages the outcomes of all external collaborators for one call:
  the two settings values, the secret-manager lookup, the `json.loads`
  oracle, `google.auth.default`, `credentials.refresh`, the issuer HTTP
  response, and the current clock value `time.time()` (idealized as `Int`).
* Every manager operation is a pure function `Env → ManagerState → ... →
  Outcome α` returning the Python result (`Except` models raised
  exceptions), the state after the call (Python exceptions leave already
  performed field assignments in place, which the embedding reproduces),
  and the list of remote calls performed, in order.
* Python truthiness of the relevant values is embedded explicitly
  (`pyStrTruthy`, `Json.truthy`, `settingUnset`).
* The `httpx.Auth` flows are embedded as functions of a transport oracle
  `send : Nat → Request → Response` (dispatch index, request).
* Lock-protected concurrent execution of `get_id_token` /
  `get_id_token_async` is embedded separately as a small interleaving
  machine (`CState`, `stepThread`, `runSched`) whose atomic steps are the
  lock acquisitions and the code between them.
-/

namespace IAP

/-- Python value produced by `json.loads`, restricted to the shapes the
module inspects: strings, objects, and everything else collapsed to an
catch-all constructor that remembers only its Python truthiness. -/
inductive Json where
  | str (s : String)
  | obj (fields : List (String × Json))
  | other (isTruthy : Bool)

/-- Python truthiness of a decoded JSON value. -/
def Json.truthy : Json → Bool
  | .str s => decide (s ≠ "")
  | .obj fields => !fields.isEmpty
  | .other b => b

/-- Python truthiness of a string (`if self._cached_token:` style tests). -/
def pyStrTruthy (t : String) : Bool := decide (t ≠ "")

/-- Python falsiness of an optional string setting: `if not setting:` is
taken when the setting is `None` or the empty string. -/
def settingUnset : Option String → Bool
  | none => true
  | some s => decide (s = "")

/-- The six characters Python `str.strip()` removes by default. -/
def pyWhitespace (c : Char) : Bool :=
  decide (c = ' ') || decide (c = '\t') || decide (c = '\n') || decide (c = '\r')
    || decide (c = '\x0b') || decide (c = '\x0c')

/-- Python `str.strip()`: drop leading and trailing whitespace. -/
def pyStrip (s : String) : String :=
  ⟨((s.data.dropWhile pyWhitespace).reverse.dropWhile pyWhitespace).reverse⟩

/-- First-match association lookup, embedding Python `dict` key access for
the (duplicate-free) dictionaries produced by `json.loads`. -/
def lookupKey {α : Type} : List (String × α) → String → Option α
  | [], _ => none
  | (k, v) :: rest, key => if k = key then some v else lookupKey rest key

/-- Application-default credential object: the module reads `.token` and
`.valid` and calls `.refresh`. -/
structure Cred where
  token : String
  valid : Bool
deriving DecidableEq

/-- Exceptions the module can raise.  `valueError` carries the message of
the corresponding Python `ValueError`; `httpStatusError` embeds
`httpx.Response.raise_for_status`; `keyError`/`typeError` embed the
dictionary-subscript failures reachable in `_get_client_id_from_secret`
and in the issuer-body access. -/
inductive AuthError where
  | valueError (msg : String)
  | secretAccessFailure
  | credentialDefaultFailure
  | credentialRefreshFailure
  | httpStatusError (status : Nat)
  | keyError (key : String)
  | typeError
deriving DecidableEq

/-- Remote operations, recorded in order of execution. -/
inductive NetCall where
  | secretAccess
  | credDefault
  | credRefresh
  | issuancePost (audience : Json)

def NetCall.isIssuance : NetCall → Bool
  | .issuancePost _ => true
  | _ => false

def NetCall.isCredCall : NetCall → Bool
  | .credDefault => true
  | .credRefresh => true
  | _ => false

def NetCall.isSecret : NetCall → Bool
  | .secretAccess => true
  | _ => false

/-- The mutable fields of the `IAPTokenManager` singleton. -/
structure ManagerState where
  cachedToken : Option String
  tokenExpiry : Int
  credentials : Option Cred
  clientId : Option Json

/-- The state of a fresh manager right after `__init__`. -/
def initManager : ManagerState :=
  { cachedToken := none, tokenExpiry := 0, credentials := none, clientId := none }

/-- Result of one manager operation: the Python return value or raised
exception, the manager state after the call, and the remote calls made. -/
structure Outcome (α : Type) where
  res : Except AuthError α
  state : ManagerState
  calls : List NetCall

/-- Outcomes of the external collaborators during one call. -/
structure Env where
  /-- `PREFECT_API_IAP_CLIENT_ID_GCP_SECRET_VERSION.value()` -/
  secretVersion : Option String
  /-- `PREFECT_API_IAP_IMPERSONATE_SERVICE_ACCOUNT.value()` -/
  serviceAccount : Option String
  /-- outcome of `access_secret_version` plus UTF-8 decode -/
  secretAccess : Except Unit String
  /-- oracle for `json.loads` (`none` embeds `JSONDecodeError`) -/
  jsonParse : String → Option Json
  /-- outcome of `google.auth.default(...)` -/
  defaultCred : Except Unit Cred
  /-- outcome of `credentials.refresh(Request())` -/
  refreshCred : Except Unit Cred
  /-- status code of the `httpx.post` issuance response -/
  issuerStatus : Nat
  /-- fields of `response.json()` for the issuance response -/
  issuerBody : List (String × String)
  /-- `time.time()` during this call, idealized to integer seconds -/
  now : Int

/-- Message of the `ValueError` raised when the secret-version setting is
unset (first sentence; the parenthesized example path is elided). -/
def secretVersionMsg : String :=
  "PREFECT_API_IAP_CLIENT_ID_GCP_SECRET_VERSION must be set to the full secret version path"

/-- Message of the `ValueError` raised when the impersonation setting is
unset. -/
def serviceAccountMsg : String :=
  "PREFECT_API_IAP_IMPERSONATE_SERVICE_ACCOUNT must be set to the email address of the service account to impersonate"

/-- `secret_json["web"]["client_id"]`: subscripting a non-dict raises
`TypeError`, a dict without the key raises `KeyError`. -/
def nested_client_id : Json → Except AuthError Json
  | .obj fields =>
    match lookupKey fields "client_id" with
    | some v => .ok v
    | none => .error (.keyError "client_id")
  | _ => .error .typeError

/-- The parsing step of `_get_client_id_from_secret` applied to the
stripped secret payload `secretData` (lines 93-106 of the source). -/
def parse_secret_data (env : Env) (secretData : String) : Except AuthError Json :=
  match env.jsonParse secretData with
  | some (.obj fields) =>
    match lookupKey fields "client_id" with
    | some v => .ok v
    | none =>
      match lookupKey fields "web" with
      | some w => nested_client_id w
      | none =>
        match lookupKey fields "installed" with
        | some w => nested_client_id w
        | none => .ok (.str secretData)
  | some _ => .ok (.str secretData)
  | none => .ok (.str secretData)

/-- Body of `_get_client_id_from_secret` past the memoization guard:
check the setting, access the secret version, strip and parse the
payload.  Returns the result together with the remote calls made. -/
def access_client_id_secret (env : Env) : Except AuthError Json × List NetCall :=
  if settingUnset env.secretVersion then
    (.error (.valueError secretVersionMsg), [])
  else
    match env.secretAccess with
    | .error _ => (.error .secretAccessFailure, [NetCall.secretAccess])
    | .ok payload => (parse_secret_data env (pyStrip payload), [NetCall.secretAccess])

/-- `IAPTokenManager._get_client_id_from_secret` (lines 75-106): returns
the memoized client id if truthy, otherwise fetches and parses it. -/
def get_client_id_from_secret (env : Env) (s : ManagerState) :
    Except AuthError Json × List NetCall :=
  match s.clientId with
  | some c => if c.truthy then (.ok c, []) else access_client_id_secret env
  | none => access_client_id_secret env

/-- The assignment `self._client_id = self._get_client_id_from_secret()`
followed by `return self._client_id`: on success the result is memoized,
on an exception the memoized value is left as it was. -/
def client_id_resolve (env : Env) (s : ManagerState) : Outcome Json :=
  match get_client_id_from_secret env s with
  | (.ok v, calls) => ⟨.ok v, { s with clientId := some v }, calls⟩
  | (.error e, calls) => ⟨.error e, s, calls⟩

/-- The `client_id` property (lines 66-73): return the memoized value if
truthy, otherwise resolve and memoize. -/
def client_id (env : Env) (s : ManagerState) : Outcome Json :=
  match s.clientId with
  | some c => if c.truthy then ⟨.ok c, s, []⟩ else client_id_resolve env s
  | none => client_id_resolve env s

/-- The tail of `_get_application_credentials` (lines 60-64): refresh the
credential object in place when it is not valid, then return it. -/
def refresh_if_invalid (env : Env) (s : ManagerState) (c : Cred) (calls : List NetCall) :
    Outcome Cred :=
  if c.valid then ⟨.ok c, s, calls⟩
  else
    match env.refreshCred with
    | .error _ => ⟨.error .credentialRefreshFailure, s, calls ++ [NetCall.credRefresh]⟩
    | .ok c2 => ⟨.ok c2, { s with credentials := some c2 }, calls ++ [NetCall.credRefresh]⟩

/-- `IAPTokenManager._get_application_credentials` (lines 53-64): obtain
Application Default Credentials once, memoize them, refresh if invalid. -/
def get_application_credentials (env : Env) (s : ManagerState) : Outcome Cred :=
  match s.credentials with
  | none =>
    match env.defaultCred with
    | .error _ => ⟨.error .credentialDefaultFailure, s, [NetCall.credDefault]⟩
    | .ok c => refresh_if_invalid env { s with credentials := some c } c [NetCall.credDefault]
  | some c => refresh_if_invalid env s c []

/-- `IAPTokenManager._generate_id_token` (lines 108-145): check the
impersonation setting, obtain credentials, POST to the `generateIdToken`
endpoint (the access token and URL only feed the request and are not part
of the observable result), `raise_for_status` (httpx raises on any
non-2xx status), read `token_data["token"]`, and pair it with the
manager-computed expiry `time.time() + 3600`. -/
def generate_id_token (env : Env) (s : ManagerState) (audience : Json) :
    Outcome (String × Int) :=
  if settingUnset env.serviceAccount then
    ⟨.error (.valueError serviceAccountMsg), s, []⟩
  else
    match get_application_credentials env s with
    | ⟨.error e, s1, calls1⟩ => ⟨.error e, s1, calls1⟩
    | ⟨.ok _cred, s1, calls1⟩ =>
      let calls2 := calls1 ++ [NetCall.issuancePost audience]
      if 200 ≤ env.issuerStatus ∧ env.issuerStatus ≤ 299 then
        match lookupKey env.issuerBody "token" with
        | none => ⟨.error (.keyError "token"), s1, calls2⟩
        | some tok => ⟨.ok (tok, env.now + 3600), s1, calls2⟩
      else ⟨.error (.httpStatusError env.issuerStatus), s1, calls2⟩

/-- `time.time() >= (self._token_expiry - 300)` at clock value `now`. -/
def is_token_expired_at (now expiry : Int) : Bool :=
  decide (now ≥ expiry - 300)

/-- `IAPTokenManager._is_token_expired` (lines 147-149). -/
def is_token_expired (env : Env) (s : ManagerState) : Bool :=
  is_token_expired_at env.now s.tokenExpiry

/-- The reuse test `if self._cached_token and not self._is_token_expired()`
on explicit cache fields (shared with the concurrent-execution model). -/
def token_reuse_ok (now : Int) (cached : Option String) (expiry : Int) : Bool :=
  match cached with
  | some t => pyStrTruthy t && !is_token_expired_at now expiry
  | none => false

/-- The reuse test of `get_id_token` line 167 on a manager state. -/
def has_valid_cached_token (env : Env) (s : ManagerState) : Bool :=
  token_reuse_ok env.now s.cachedToken s.tokenExpiry

/-- `if audience is None: audience = self.client_id` (lines 163-164). -/
def resolve_audience (env : Env) (s : ManagerState) (audience : Option Json) : Outcome Json :=
  match audience with
  | some a => ⟨.ok a, s, []⟩
  | none => client_id env s

/-- `IAPTokenManager.get_id_token` (lines 151-172), as executed under
`self._sync_lock`: default the audience, return the cached token if it is
truthy and not within the expiry buffer, otherwise generate a new token
and store it together with its expiry. -/
def get_id_token (env : Env) (s : ManagerState) (audience : Option Json) : Outcome String :=
  match resolve_audience env s audience with
  | ⟨.error e, s1, calls1⟩ => ⟨.error e, s1, calls1⟩
  | ⟨.ok aud, s1, calls1⟩ =>
    if has_valid_cached_token env s1 then
      ⟨.ok (s1.cachedToken.getD ""), s1, calls1⟩
    else
      match generate_id_token env s1 aud with
      | ⟨.error e, s2, calls2⟩ => ⟨.error e, s2, calls1 ++ calls2⟩
      | ⟨.ok (tok, exp), s2, calls2⟩ =>
        ⟨.ok tok, { s2 with cachedToken := some tok, tokenExpiry := exp }, calls1 ++ calls2⟩

/-- `IAPTokenManager.get_id_token_async` (lines 174-184): under the async
lock it runs `get_id_token` in a worker thread, so once serialized it
computes exactly `get_id_token`. -/
def get_id_token_async (env : Env) (s : ManagerState) (audience : Option Json) :
    Outcome String :=
  get_id_token env s audience

/-- `IAPTokenManager.clear_cached_token` (lines 186-190), with the (empty)
list of remote calls it performs. -/
def clear_cached_token (s : ManagerState) : ManagerState × List NetCall :=
  ({ s with cachedToken := none, tokenExpiry := 0 }, [])

/-- An outgoing `httpx.Request`: the module only touches its headers. -/
structure Request where
  headers : List (String × String)

/-- An `httpx.Response`: the module only reads the status code; the body
stands for everything else that is passed through untouched. -/
structure Response where
  status : Nat
  body : String

/-- `request.headers[name] = value`: overwrite the header `name`
(httpx case-insensitivity of header names is elided). -/
def setHeader (hs : List (String × String)) (name value : String) :
    List (String × String) :=
  hs.filter (fun p => decide (p.fst ≠ name)) ++ [(name, value)]

/-- Read a header back. -/
def getHeader (hs : List (String × String)) (name : String) : Option String :=
  lookupKey hs name

/-- Observable events of one auth-flow execution, in order. -/
inductive FlowEv where
  | net (c : NetCall)
  | cleared
  | sent (reqHeaders : List (String × String)) (resp : Response)

def FlowEv.isSent : FlowEv → Bool
  | .sent _ _ => true
  | _ => false

def FlowEv.isCleared : FlowEv → Bool
  | .cleared => true
  | _ => false

def FlowEv.isIssuanceEv : FlowEv → Bool
  | .net c => c.isIssuance
  | _ => false

/-- Events strictly after the (first) cache invalidation. -/
def afterCleared : List FlowEv → List FlowEv
  | [] => []
  | e :: rest => if e.isCleared then rest else afterCleared rest

/-- Result of one auth-flow execution: final response (or the exception a
token call raised), manager state, the request object (mutated in place
by the flow), and the event list. -/
structure FlowOutcome where
  res : Except AuthError Response
  state : ManagerState
  req : Request
  events : List FlowEv

/-- `IAPAuth.sync_auth_flow` (lines 222-249) against a transport oracle
`send` (dispatch index, request ↦ response): attach a bearer token, send;
on a 401 clear the cached token, fetch a fresh token, re-set the header
and send exactly once more, returning the second response as-is. -/
def sync_auth_flow (env : Env) (send : Nat → Request → Response) (headerName : String)
    (s : ManagerState) (req : Request) : FlowOutcome :=
  match get_id_token env s none with
  | ⟨.error e, s1, calls1⟩ => ⟨.error e, s1, req, calls1.map FlowEv.net⟩
  | ⟨.ok tok, s1, calls1⟩ =>
    let req1 : Request := ⟨setHeader req.headers headerName ("Bearer " ++ tok)⟩
    let resp1 := send 0 req1
    let evs1 := calls1.map FlowEv.net ++ [FlowEv.sent req1.headers resp1]
    if resp1.status = 401 then
      match clear_cached_token s1 with
      | (s2, _) =>
        match get_id_token env s2 none with
        | ⟨.error e, s3, calls2⟩ =>
          ⟨.error e, s3, req1, evs1 ++ [FlowEv.cleared] ++ calls2.map FlowEv.net⟩
        | ⟨.ok tok2, s3, calls2⟩ =>
          let req2 : Request := ⟨setHeader req1.headers headerName ("Bearer " ++ tok2)⟩
          let resp2 := send 1 req2
          ⟨.ok resp2, s3, req2,
            evs1 ++ [FlowEv.cleared] ++ calls2.map FlowEv.net
              ++ [FlowEv.sent req2.headers resp2]⟩
    else ⟨.ok resp1, s1, req1, evs1⟩

/-- `IAPAuth.async_auth_flow` (lines 251-274): identical control flow, but
the tokens are obtained through `get_id_token_async`. -/
def async_auth_flow (env : Env) (send : Nat → Request → Response) (headerName : String)
    (s : ManagerState) (req : Request) : FlowOutcome :=
  match get_id_token_async env s none with
  | ⟨.error e, s1, calls1⟩ => ⟨.error e, s1, req, calls1.map FlowEv.net⟩
  | ⟨.ok tok, s1, calls1⟩ =>
    let req1 : Request := ⟨setHeader req.headers headerName ("Bearer " ++ tok)⟩
    let resp1 := send 0 req1
    let evs1 := calls1.map FlowEv.net ++ [FlowEv.sent req1.headers resp1]
    if resp1.status = 401 then
      match clear_cached_token s1 with
      | (s2, _) =>
        match get_id_token_async env s2 none with
        | ⟨.error e, s3, calls2⟩ =>
          ⟨.error e, s3, req1, evs1 ++ [FlowEv.cleared] ++ calls2.map FlowEv.net⟩
        | ⟨.ok tok2, s3, calls2⟩ =>
          let req2 : Request := ⟨setHeader req1.headers headerName ("Bearer " ++ tok2)⟩
          let resp2 := send 1 req2
          ⟨.ok resp2, s3, req2,
            evs1 ++ [FlowEv.cleared] ++ calls2.map FlowEv.net
              ++ [FlowEv.sent req2.headers resp2]⟩
    else ⟨.ok resp1, s1, req1, evs1⟩

/-
Interleaved execution of `get_id_token` / `get_id_token_async`.

Each logical caller is a thread executing `get_id_token` against the
shared singleton.  Its atomic steps are exactly the points where the
source synchronizes: acquiring `self._async_lock` (cooperative callers
only), acquiring `self._sync_lock`, the cached-token test of line 167,
and the refresh of line 171 (which, on success, writes the cache and
returns).  Releases are folded into the step that leaves the guarded
section.  The environment is fixed and successful: the audience is
already memoized and the issuer yields the token `tok` (the single-flight
claim is about an empty cache and a working issuer), at constant clock
`now`.
-/

/-- Program counter of one caller. -/
inductive Phase where
  | wantAsyncLock
  | wantSyncLock
  | checkCache
  | refreshing
  | finished (result : String)
deriving DecidableEq

/-- Shared state of the interleaved execution: the two lock owners, the
cache fields of the singleton, the number of issuance calls performed so
far, and every caller's program counter. -/
structure CState where
  syncOwner : Option Nat
  asyncOwner : Option Nat
  cache : Option (String × Int)
  issuances : Nat
  phases : Nat → Phase

/-- `kinds` lists the callers (`true` = cooperative caller entering via
`get_id_token_async`, `false` = blocking caller).  Threads beyond the list
are inert (already finished with the reference token). -/
def initCState (kinds : List Bool) (tok : String) : CState :=
  { syncOwner := none
    asyncOwner := none
    cache := none
    issuances := 0
    phases := fun i =>
      if i < kinds.length then
        (if kinds.getD i false then .wantAsyncLock else .wantSyncLock)
      else .finished tok }

/-- Thread `i` leaves the guarded section with result `r`: release the
sync lock, release the async lock when `i` is a cooperative caller, and
record the result. -/
def finishThread (kinds : List Bool) (st : CState) (i : Nat) (r : String) : CState :=
  { st with
    syncOwner := none
    asyncOwner := if kinds.getD i false then none else st.asyncOwner
    phases := Function.update st.phases i (.finished r) }

/-- One atomic step of thread `i`; a thread whose next action is blocked
on a lock (or that is finished) stutters. -/
def stepThread (kinds : List Bool) (tok : String) (now : Int) (st : CState) (i : Nat) :
    CState :=
  match st.phases i with
  | .wantAsyncLock =>
    match st.asyncOwner with
    | none => { st with asyncOwner := some i
                        phases := Function.update st.phases i .wantSyncLock }
    | some _ => st
  | .wantSyncLock =>
    match st.syncOwner with
    | none => { st with syncOwner := some i
                        phases := Function.update st.phases i .checkCache }
    | some _ => st
  | .checkCache =>
    match st.cache with
    | some (t, e) =>
      if token_reuse_ok now (some t) e then finishThread kinds st i t
      else { st with phases := Function.update st.phases i .refreshing }
    | none => { st with phases := Function.update st.phases i .refreshing }
  | .refreshing =>
    -- issue, store the token with the manager-fixed expiry, return it,
    -- releasing the locks (the body of `finishThread` with the cache
    -- write and the issuance count)
    { syncOwner := none
      asyncOwner := if kinds.getD i false then none else st.asyncOwner
      cache := some (tok, now + 3600)
      issuances := st.issuances + 1
      phases := Function.update st.phases i (.finished tok) }
  | .finished _ => st

/-- Run the interleaving dictated by a schedule (a list of thread ids). -/
def runSched (kinds : List Bool) (tok : String) (now : Int) (sched : List Nat) : CState :=
  sched.foldl (stepThread kinds tok now) (initCState kinds tok)

/-- Inductive invariant of the interleaved execution: issuance happens at
most once, the cache can only hold the issued token with the fixed
expiry, the guarded section (cache test and refresh) is protected by the
sync lock, a refresh can only be in flight while the cache is empty,
every finished caller got the issued token, and a finished caller implies
the one issuance already happened. -/
def ConcInv (kinds : List Bool) (tok : String) (now : Int) (st : CState) : Prop :=
  st.issuances ≤ 1 ∧
  (st.cache = none → st.issuances = 0) ∧
  (∀ t e, st.cache = some (t, e) → t = tok ∧ e = now + 3600 ∧ st.issuances = 1) ∧
  (∀ i, (st.phases i = .checkCache ∨ st.phases i = .refreshing) → st.syncOwner = some i) ∧
  (∀ i, st.phases i = .refreshing → st.cache = none) ∧
  (∀ i r, st.phases i = .finished r → r = tok) ∧
  (∀ i, i < kinds.length → ∀ r, st.phases i = .finished r → st.issuances = 1)

/-
Concrete inputs used by the witnesses and counterexamples below.
-/

/-- A fully functional environment: settings set, secret resolves to the
plain string `cid`, credentials valid, issuer succeeds with `newtok`. -/
def envOk : Env :=
  { secretVersion := some "sv"
    serviceAccount := some "sa"
    secretAccess := .ok "cid"
    jsonParse := fun _ => none
    defaultCred := .ok ⟨"at", true⟩
    refreshCred := .ok ⟨"at", true⟩
    issuerStatus := 200
    issuerBody := [("token", "newtok")]
    now := 0 }

/-- `envOk` with the impersonation setting unset. -/
def envNoSA : Env :=
  { envOk with serviceAccount := none }

/-- `envOk` with a failing issuance endpoint. -/
def envIssuerDown : Env :=
  { envOk with issuerStatus := 500 }

/-- A state with a valid cached token and no memoized client id. -/
def sCachedOnly : ManagerState :=
  { cachedToken := some "tok", tokenExpiry := 10000, credentials := none, clientId := none }

/-- A state with a valid cached token and a memoized client id. -/
def sCachedMemo : ManagerState :=
  { cachedToken := some "tok", tokenExpiry := 10000, credentials := none
    clientId := some (.str "cid") }

/-- `envOk` with a secret whose stripped payload is the empty string and a
failing issuer. -/
def envEmptySecret : Env :=
  { envOk with secretAccess := .ok "", issuerStatus := 500 }

/-- An environment whose secret payload is the JSON text for an object
with key `client_id` mapped to `abc`. -/
def envParse : Env :=
  { envOk with
    secretAccess := .ok "\x7b\"client_id\": \"abc\"\x7d"
    jsonParse := fun d =>
      if d = "\x7b\"client_id\": \"abc\"\x7d" then some (.obj [("client_id", .str "abc")])
      else none }

/-- An environment whose secret payload is the JSON text for the object
with key `web` mapped to an empty object. -/
def envWebEmpty : Env :=
  { envOk with
    secretAccess := .ok "\x7b\"web\": \x7b\x7d\x7d"
    jsonParse := fun d =>
      if d = "\x7b\"web\": \x7b\x7d\x7d" then some (.obj [("web", .obj [])])
      else none }

/-
Helper lemmas.
-/

theorem client_id_resolve_cache_fields (env : Env) (s : ManagerState) :
    (client_id_resolve env s).state.cachedToken = s.cachedToken ∧
    (client_id_resolve env s).state.tokenExpiry = s.tokenExpiry ∧
    (client_id_resolve env s).state.credentials = s.credentials := by
  unfold client_id_resolve
  rcases hg : get_client_id_from_secret env s with ⟨res, calls⟩
  cases res <;> simp

theorem client_id_cache_fields (env : Env) (s : ManagerState) :
    (client_id env s).state.cachedToken = s.cachedToken ∧
    (client_id env s).state.tokenExpiry = s.tokenExpiry ∧
    (client_id env s).state.credentials = s.credentials := by
  unfold client_id
  cases hc : s.clientId with
  | none => exact client_id_resolve_cache_fields env s
  | some c =>
    by_cases ht : c.truthy <;> simp [ht]
    exact client_id_resolve_cache_fields env s

theorem resolve_audience_cache_fields (env : Env) (s : ManagerState) (aud : Option Json) :
    (resolve_audience env s aud).state.cachedToken = s.cachedToken ∧
    (resolve_audience env s aud).state.tokenExpiry = s.tokenExpiry ∧
    (resolve_audience env s aud).state.credentials = s.credentials := by
  cases aud with
  | none => exact client_id_cache_fields env s
  | some a => exact ⟨rfl, rfl, rfl⟩

theorem access_client_id_secret_calls (env : Env) :
    (access_client_id_secret env).2 = [] ∨
    (access_client_id_secret env).2 = [NetCall.secretAccess] := by
  unfold access_client_id_secret
  split
  · exact Or.inl rfl
  · rcases henv : env.secretAccess with _ | p <;> simp [henv]

theorem get_client_id_from_secret_calls (env : Env) (s : ManagerState) :
    (get_client_id_from_secret env s).2 = [] ∨
    (get_client_id_from_secret env s).2 = [NetCall.secretAccess] := by
  unfold get_client_id_from_secret
  cases hc : s.clientId with
  | none => exact access_client_id_secret_calls env
  | some c =>
    by_cases ht : c.truthy <;> simp [ht]
    exact access_client_id_secret_calls env

theorem client_id_resolve_calls (env : Env) (s : ManagerState) :
    (client_id_resolve env s).calls = (get_client_id_from_secret env s).2 := by
  unfold client_id_resolve
  rcases hg : get_client_id_from_secret env s with ⟨res, calls⟩
  cases res <;> simp

theorem client_id_calls_cases (env : Env) (s : ManagerState) :
    (client_id env s).calls = [] ∨ (client_id env s).calls = [NetCall.secretAccess] := by
  unfold client_id
  cases hc : s.clientId with
  | none => rw [client_id_resolve_calls]; exact get_client_id_from_secret_calls env s
  | some c =>
    by_cases ht : c.truthy <;> simp [ht]
    rw [client_id_resolve_calls]
    exact get_client_id_from_secret_calls env s

theorem resolve_audience_calls_cases (env : Env) (s : ManagerState) (aud : Option Json) :
    (resolve_audience env s aud).calls = [] ∨
    (resolve_audience env s aud).calls = [NetCall.secretAccess] := by
  cases aud with
  | none => exact client_id_calls_cases env s
  | some a => exact Or.inl rfl

theorem refresh_if_invalid_other_fields (env : Env) (s : ManagerState) (c : Cred)
    (calls : List NetCall) :
    (refresh_if_invalid env s c calls).state.cachedToken = s.cachedToken ∧
    (refresh_if_invalid env s c calls).state.tokenExpiry = s.tokenExpiry ∧
    (refresh_if_invalid env s c calls).state.clientId = s.clientId := by
  unfold refresh_if_invalid
  split <;> [skip; split] <;> simp

theorem get_application_credentials_other_fields (env : Env) (s : ManagerState) :
    (get_application_credentials env s).state.cachedToken = s.cachedToken ∧
    (get_application_credentials env s).state.tokenExpiry = s.tokenExpiry ∧
    (get_application_credentials env s).state.clientId = s.clientId := by
  unfold get_application_credentials
  cases hc : s.credentials with
  | none =>
    cases hd : env.defaultCred with
    | error e => simp
    | ok c => exact refresh_if_invalid_other_fields env _ c _
  | some c => exact refresh_if_invalid_other_fields env s c []

theorem generate_id_token_other_fields (env : Env) (s : ManagerState) (a : Json) :
    (generate_id_token env s a).state.cachedToken = s.cachedToken ∧
    (generate_id_token env s a).state.tokenExpiry = s.tokenExpiry ∧
    (generate_id_token env s a).state.clientId = s.clientId := by
  unfold generate_id_token
  split
  · simp
  · rcases hg : get_application_credentials env s with ⟨res, s1, calls1⟩
    have hf := get_application_credentials_other_fields env s
    rw [hg] at hf
    cases res with
    | error e => simpa using hf
    | ok c =>
      simp only []
      split
      · split <;> simpa using hf
      · simpa using hf

theorem NetCall.credCall_not_issuance {c : NetCall} (h : c.isCredCall = true) :
    c.isIssuance = false ∧ c.isSecret = false := by
  cases c <;> simp_all [NetCall.isCredCall, NetCall.isIssuance, NetCall.isSecret]

theorem refresh_if_invalid_calls (env : Env) (s : ManagerState) (c : Cred)
    (calls : List NetCall) (h : ∀ x ∈ calls, NetCall.isCredCall x = true) :
    ∀ x ∈ (refresh_if_invalid env s c calls).calls, NetCall.isCredCall x = true := by
  unfold refresh_if_invalid
  split
  · exact h
  · split <;>
      · intro x hx
        rcases List.mem_append.1 hx with hx | hx
        · exact h x hx
        · simp only [List.mem_singleton] at hx
          subst hx
          rfl

theorem get_application_credentials_calls (env : Env) (s : ManagerState) :
    ∀ x ∈ (get_application_credentials env s).calls, NetCall.isCredCall x = true := by
  unfold get_application_credentials
  cases hc : s.credentials with
  | none =>
    cases hd : env.defaultCred with
    | error e => simp [NetCall.isCredCall]
    | ok c =>
      refine refresh_if_invalid_calls env _ c _ ?_
      intro x hx
      simp only [List.mem_singleton] at hx
      subst hx
      rfl
  | some c => exact refresh_if_invalid_calls env s c [] (by simp)

theorem get_application_credentials_calls_counts (env : Env) (s : ManagerState) :
    (get_application_credentials env s).calls.countP NetCall.isIssuance = 0 ∧
    (get_application_credentials env s).calls.countP NetCall.isSecret = 0 := by
  constructor <;>
    · rw [List.countP_eq_zero]
      intro a ha
      have := NetCall.credCall_not_issuance (get_application_credentials_calls env s a ha)
      simp [this.1, this.2]

theorem generate_id_token_issuance_count (env : Env) (s : ManagerState) (a : Json)
    (hsa : settingUnset env.serviceAccount = false)
    (hcred : ∃ c, (get_application_credentials env s).res = .ok c) :
    (generate_id_token env s a).calls.countP NetCall.isIssuance = 1 := by
  obtain ⟨c, hc⟩ := hcred
  have hcnt := (get_application_credentials_calls_counts env s).1
  unfold generate_id_token
  simp only [hsa, Bool.false_eq_true, if_false]
  rcases hg : get_application_credentials env s with ⟨res, s1, calls1⟩
  rw [hg] at hc hcnt
  simp only at hc hcnt
  cases res with
  | error e => exact absurd hc (by simp)
  | ok c2 =>
    simp only []
    have hone : (calls1 ++ [NetCall.issuancePost a]).countP NetCall.isIssuance = 1 := by
      rw [List.countP_append, hcnt]
      rfl
    split
    · split <;> simpa using hone
    · simpa using hone

theorem generate_id_token_ok_facts (env : Env) (s : ManagerState) (a : Json)
    (tok : String) (exp : Int)
    (h : (generate_id_token env s a).res = .ok (tok, exp)) :
    exp = env.now + 3600 ∧ lookupKey env.issuerBody "token" = some tok ∧
    settingUnset env.serviceAccount = false := by
  unfold generate_id_token at h
  split at h
  · exact absurd h (by simp)
  · rcases hg : get_application_credentials env s with ⟨res, s1, calls1⟩
    rw [hg] at h
    cases res with
    | error e => exact absurd h (by simp)
    | ok c =>
      simp only [] at h
      split at h
      · split at h
        · exact absurd h (by simp)
        · rename_i htok
          simp only [Except.ok.injEq, Prod.mk.injEq] at h
          exact ⟨h.2.symm, h.1 ▸ htok, by simp_all⟩
      · exact absurd h (by simp)

/-
Claim theorems.
-/

/-- Claim C9: `clear_cached_token` unconditionally clears the cached token
and sets the expiry to the empty state, is idempotent, performs no remote
call, and leaves the memoized audience and the credential handle
unchanged. -/
theorem c9_invalidate_unconditional_idempotent (s : ManagerState) :
    (clear_cached_token s).1.cachedToken = none ∧
    (clear_cached_token s).1.tokenExpiry = 0 ∧
    (clear_cached_token s).2 = [] ∧
    clear_cached_token (clear_cached_token s).1 = clear_cached_token s ∧
    (clear_cached_token s).1.clientId = s.clientId ∧
    (clear_cached_token s).1.credentials = s.credentials := by
  cases s
  exact ⟨rfl, rfl, rfl, rfl, rfl, rfl⟩

/-- Claim C10: when `get_id_token` is called with an explicitly supplied
audience and a truthy, non-expired cached token exists, the cached token
is returned unchanged with no remote call and no state change, for every
audience value: the cache stores no audience and no audience comparison
happens on a hit. -/
theorem c10_cache_hit_ignores_audience (env : Env) (s : ManagerState) (a : Json)
    (t0 : String) (hc : s.cachedToken = some t0) (ht : pyStrTruthy t0 = true)
    (he : is_token_expired_at env.now s.tokenExpiry = false) :
    get_id_token env s (some a) = ⟨.ok t0, s, []⟩ := by
  have hv : has_valid_cached_token env s = true := by
    simp [has_valid_cached_token, token_reuse_ok, hc, ht, he]
  unfold get_id_token resolve_audience
  simp [hv, hc]

/-- Witness for C10 at a concrete input. -/
theorem c10_cache_hit_ignores_audience_witness :
    get_id_token envOk sCachedMemo (some (.str "other-audience")) =
      ⟨.ok "tok", sCachedMemo, []⟩ :=
  c10_cache_hit_ignores_audience envOk sCachedMemo (.str "other-audience") "tok"
    rfl (by decide) (by decide)

/-- Claim C4: whenever `get_id_token` raises (configuration, resolution,
credential, or issuance failure), the cached token and expiry are exactly
as before the call; no failure is cached. -/
theorem c4_error_leaves_cache_unchanged (env : Env) (s : ManagerState) (aud : Option Json)
    (e : AuthError) (h : (get_id_token env s aud).res = .error e) :
    (get_id_token env s aud).state.cachedToken = s.cachedToken ∧
    (get_id_token env s aud).state.tokenExpiry = s.tokenExpiry := by
  have hres := resolve_audience_cache_fields env s aud
  unfold get_id_token at h ⊢
  rcases hr : resolve_audience env s aud with ⟨res1, s1, calls1⟩
  rw [hr] at h hres
  have hc1 : s1.cachedToken = s.cachedToken := hres.1
  have hc2 : s1.tokenExpiry = s.tokenExpiry := hres.2.1
  cases res1 with
  | error e1 => exact ⟨hc1, hc2⟩
  | ok a =>
    by_cases hv : has_valid_cached_token env s1
    · simp [hv] at h
    · simp only [hv, Bool.false_eq_true, if_false] at h ⊢
      have hgen := generate_id_token_other_fields env s1 a
      rcases hg : generate_id_token env s1 a with ⟨res2, s2, calls2⟩
      rw [hg] at h hgen
      have hg1 : s2.cachedToken = s1.cachedToken := hgen.1
      have hg2 : s2.tokenExpiry = s1.tokenExpiry := hgen.2.1
      cases res2 with
      | error e2 => exact ⟨hg1.trans hc1, hg2.trans hc2⟩
      | ok p => rcases p with ⟨tok, exp⟩; simp at h

/-- Witness for C4 at a concrete input (issuance endpoint failing with a
500 status). -/
theorem c4_error_leaves_cache_unchanged_witness :
    (get_id_token envIssuerDown initManager (some (.str "a"))).state.cachedToken =
        initManager.cachedToken ∧
    (get_id_token envIssuerDown initManager (some (.str "a"))).state.tokenExpiry =
        initManager.tokenExpiry :=
  c4_error_leaves_cache_unchanged envIssuerDown initManager (some (.str "a"))
    (.httpStatusError 500) rfl

/-- Claim C8: every successful refresh stores
`expiry = time-of-refresh + 3600`, a window applied by the manager itself
(the issuer body is arbitrary here and any expiry field in it is
ignored), and caches the returned token. -/
theorem c8_fixed_validity_window (env : Env) (s : ManagerState) (aud : Option Json)
    (t : String) (hmiss : has_valid_cached_token env s = false)
    (h : (get_id_token env s aud).res = .ok t) :
    (get_id_token env s aud).state.tokenExpiry = env.now + 3600 ∧
    (get_id_token env s aud).state.cachedToken = some t := by
  have hres := resolve_audience_cache_fields env s aud
  unfold get_id_token at h ⊢
  rcases hr : resolve_audience env s aud with ⟨res1, s1, calls1⟩
  rw [hr] at h hres
  have hc1 : s1.cachedToken = s.cachedToken := hres.1
  have hc2 : s1.tokenExpiry = s.tokenExpiry := hres.2.1
  cases res1 with
  | error e1 => simp at h
  | ok a =>
    have hv : has_valid_cached_token env s1 = false := by
      unfold has_valid_cached_token
      rw [hc1, hc2]
      exact hmiss
    simp only [hv, Bool.false_eq_true, if_false] at h ⊢
    rcases hg : generate_id_token env s1 a with ⟨res2, s2, calls2⟩
    rw [hg] at h
    cases res2 with
    | error e2 => simp at h
    | ok p =>
      rcases p with ⟨tok, exp⟩
      simp only [Except.ok.injEq] at h
      subst h
      have hfacts := generate_id_token_ok_facts env s1 a tok exp (by rw [hg])
      exact ⟨hfacts.1, rfl⟩

/-- Witness for C8 at a concrete input (empty cache, issuer succeeds). -/
theorem c8_fixed_validity_window_witness :
    (get_id_token envOk initManager none).state.tokenExpiry = envOk.now + 3600 ∧
    (get_id_token envOk initManager none).state.cachedToken = some "newtok" :=
  c8_fixed_validity_window envOk initManager none "newtok" (by decide) rfl

/-- Counterexample to C3 as stated: with a valid cached token, an omitted
audience argument, and no memoized client id, the cache hit still
performs a remote secret-manager lookup before returning the cached
token, so the hit is not free of remote calls. -/
theorem c3_counterexample :
    (get_id_token envOk sCachedOnly none).res = .ok "tok" ∧
    (get_id_token envOk sCachedOnly none).calls = [NetCall.secretAccess] :=
  ⟨rfl, rfl⟩

/-- Claim C3 (amended): the audience step (use the supplied audience,
else the memoized or freshly resolved client id) runs before the cache
is consulted, and when it fails that error propagates even though a
valid cached token exists.  When the audience step succeeds: if a truthy
cached token exists and `now < expiry - 300`, the cached token is
returned with no issuance and no credential call (and at most one
audience-resolution lookup, none when the audience is supplied
explicitly); otherwise, when additionally the impersonation setting is
set and credentials are obtainable, exactly one issuance call is made,
and if the issuer responds 2xx with a `token` field that token is
returned. -/
theorem c3_reuse_and_refresh (env : Env) (s : ManagerState) (aud : Option Json) :
    (has_valid_cached_token env s = true →
      ∀ a, (resolve_audience env s aud).res = .ok a →
        (get_id_token env s aud).res = .ok (s.cachedToken.getD "") ∧
        (get_id_token env s aud).calls.countP NetCall.isIssuance = 0 ∧
        (get_id_token env s aud).calls.countP NetCall.isCredCall = 0 ∧
        (get_id_token env s aud).calls.countP NetCall.isSecret ≤ 1 ∧
        (∀ a0, aud = some a0 → (get_id_token env s aud).calls = [])) ∧
    (has_valid_cached_token env s = false →
      ∀ a, (resolve_audience env s aud).res = .ok a →
        settingUnset env.serviceAccount = false →
        ∀ c, (get_application_credentials env (resolve_audience env s aud).state).res = .ok c →
          (get_id_token env s aud).calls.countP NetCall.isIssuance = 1 ∧
          (∀ tk, 200 ≤ env.issuerStatus → env.issuerStatus ≤ 299 →
            lookupKey env.issuerBody "token" = some tk →
            (get_id_token env s aud).res = .ok tk)) ∧
    (∀ e, (resolve_audience env s aud).res = .error e →
      (get_id_token env s aud).res = .error e) := by
  have hres := resolve_audience_cache_fields env s aud
  have hcalls := resolve_audience_calls_cases env s aud
  refine ⟨?_, ?_, ?_⟩
  · intro hvalid a ha
    unfold get_id_token
    rcases hr : resolve_audience env s aud with ⟨res1, s1, calls1⟩
    rw [hr] at ha hres hcalls
    have hc1 : s1.cachedToken = s.cachedToken := hres.1
    have hc2 : s1.tokenExpiry = s.tokenExpiry := hres.2.1
    have hcl : calls1 = [] ∨ calls1 = [NetCall.secretAccess] := hcalls
    cases res1 with
    | error e1 => simp at ha
    | ok a1 =>
      have hv : has_valid_cached_token env s1 = true := by
        unfold has_valid_cached_token
        rw [hc1, hc2]
        exact hvalid
      simp only [hv, if_true]
      refine ⟨by rw [hc1], ?_, ?_, ?_, ?_⟩
      · rcases hcl with h | h <;> subst h <;> rfl
      · rcases hcl with h | h <;> subst h <;> rfl
      · rcases hcl with h | h <;> subst h <;> decide
      · intro a0 haud
        subst haud
        unfold resolve_audience at hr
        simp only [Outcome.mk.injEq] at hr
        exact hr.2.2.symm
  · intro hmiss a ha hsa c hcred
    unfold get_id_token
    rcases hr : resolve_audience env s aud with ⟨res1, s1, calls1⟩
    rw [hr] at ha hres hcalls hcred
    have hc1 : s1.cachedToken = s.cachedToken := hres.1
    have hc2 : s1.tokenExpiry = s.tokenExpiry := hres.2.1
    have hcl : calls1 = [] ∨ calls1 = [NetCall.secretAccess] := hcalls
    cases res1 with
    | error e1 => simp at ha
    | ok a1 =>
      simp only [Except.ok.injEq] at ha
      subst ha
      have hv : has_valid_cached_token env s1 = false := by
        unfold has_valid_cached_token
        rw [hc1, hc2]
        exact hmiss
      simp only [hv, Bool.false_eq_true, if_false]
      have hcred1 : (get_application_credentials env s1).res = .ok c := hcred
      have hiss := generate_id_token_issuance_count env s1 a1 hsa ⟨c, hcred1⟩
      have hcnt1 : calls1.countP NetCall.isIssuance = 0 := by
        rcases hcl with h | h <;> subst h <;> rfl
      rcases hg : generate_id_token env s1 a1 with ⟨res2, s2, calls2⟩
      rw [hg] at hiss
      try rw [hg]
      constructor
      · cases res2 with
        | error e2 => simpa [List.countP_append, hcnt1] using hiss
        | ok p =>
          rcases p with ⟨tok, exp⟩
          simpa [List.countP_append, hcnt1] using hiss
      · intro tk hlo hhi htk
        have hga2 : (generate_id_token env s1 a1).res = .ok (tk, env.now + 3600) := by
          unfold generate_id_token
          rcases hga : get_application_credentials env s1 with ⟨resc, sc, callsc⟩
          rw [hga] at hcred1
          try rw [hga]
          cases resc with
          | error e2 => simp at hcred1
          | ok c2 => simp [hsa, hlo, hhi, htk]
        rw [hg] at hga2
        cases res2 with
        | error e2 => simp at hga2
        | ok p =>
          rcases p with ⟨tok, exp⟩
          simp only [Except.ok.injEq, Prod.mk.injEq] at hga2
          simp [hga2.1]
  · intro e he
    unfold get_id_token
    rcases hr : resolve_audience env s aud with ⟨res1, s1, calls1⟩
    rw [hr] at he
    cases res1 with
    | error e1 =>
      simp only [Except.error.injEq] at he
      subst he
      rfl
    | ok a1 => simp at he

/-- Witness for the amended C3: concrete instantiations of the cache-hit
branch, the refresh branch, and the audience-step-failure branch (a
valid cached token does not save a call whose audience resolution
raises). -/
theorem c3_reuse_and_refresh_witness :
    (get_id_token envOk sCachedMemo none).res = .ok "tok" ∧
    (get_id_token envOk initManager none).res = .ok "newtok" ∧
    (get_id_token envOk initManager none).calls.countP NetCall.isIssuance = 1 ∧
    (get_id_token envWebEmpty sCachedOnly none).res = .error (.keyError "client_id") :=
  ⟨((c3_reuse_and_refresh envOk sCachedMemo none).1 (by decide) (.str "cid") rfl).1,
   (((c3_reuse_and_refresh envOk initManager none).2.1 (by decide) (.str "cid") rfl
        (by decide) ⟨"at", true⟩ rfl).2 "newtok" (by decide) (by decide) rfl),
   (((c3_reuse_and_refresh envOk initManager none).2.1 (by decide) (.str "cid") rfl
        (by decide) ⟨"at", true⟩ rfl).1),
   (c3_reuse_and_refresh envWebEmpty sCachedOnly none).2.2 (.keyError "client_id") rfl⟩

/-- Counterexample to C5 as stated: with the impersonation setting unset
but a valid cached token, `get_id_token` succeeds (and even performs a
secret-manager lookup), instead of failing with a configuration error and
performing no network calls. -/
theorem c5_counterexample :
    envNoSA.serviceAccount = none ∧
    (get_id_token envNoSA sCachedOnly none).res = .ok "tok" ∧
    (get_id_token envNoSA sCachedOnly none).calls = [NetCall.secretAccess] :=
  ⟨rfl, rfl, rfl⟩

/-- Claim C5 (amended): with the impersonation setting unset, every
`get_id_token` call that does not hit a valid cached token and whose
audience step succeeds fails with the actionable `ValueError` about
`PREFECT_API_IAP_IMPERSONATE_SERVICE_ACCOUNT`, performing no credential
call and no issuance call (at most the audience-resolution lookup). -/
theorem c5_config_error_without_valid_cache (env : Env) (s : ManagerState) (aud : Option Json)
    (a : Json) (hsa : settingUnset env.serviceAccount = true)
    (hmiss : has_valid_cached_token env s = false)
    (ha : (resolve_audience env s aud).res = .ok a) :
    (get_id_token env s aud).res = .error (.valueError serviceAccountMsg) ∧
    (get_id_token env s aud).calls.countP NetCall.isIssuance = 0 ∧
    (get_id_token env s aud).calls.countP NetCall.isCredCall = 0 ∧
    (get_id_token env s aud).calls.countP NetCall.isSecret ≤ 1 := by
  have hres := resolve_audience_cache_fields env s aud
  have hcalls := resolve_audience_calls_cases env s aud
  unfold get_id_token
  rcases hr : resolve_audience env s aud with ⟨res1, s1, calls1⟩
  rw [hr] at ha hres hcalls
  have hc1 : s1.cachedToken = s.cachedToken := hres.1
  have hc2 : s1.tokenExpiry = s.tokenExpiry := hres.2.1
  cases res1 with
  | error e1 => simp at ha
  | ok a1 =>
    have hv : has_valid_cached_token env s1 = false := by
      unfold has_valid_cached_token
      rw [hc1, hc2]
      exact hmiss
    simp only [hv, Bool.false_eq_true, if_false]
    have hgen : generate_id_token env s1 a1 =
        ⟨.error (.valueError serviceAccountMsg), s1, []⟩ := by
      unfold generate_id_token
      simp [hsa]
    rw [hgen]
    have h0i : (calls1 ++ ([] : List NetCall)).countP NetCall.isIssuance = 0 := by
      rcases hcalls with h | h <;> subst h <;> decide
    have h0c : (calls1 ++ ([] : List NetCall)).countP NetCall.isCredCall = 0 := by
      rcases hcalls with h | h <;> subst h <;> decide
    have hle : (calls1 ++ ([] : List NetCall)).countP NetCall.isSecret ≤ 1 := by
      rcases hcalls with h | h <;> subst h <;> decide
    exact ⟨rfl, h0i, h0c, hle⟩

/-- Witness for the amended C5 at a concrete input. -/
theorem c5_config_error_without_valid_cache_witness :
    (get_id_token envNoSA initManager none).res =
      .error (.valueError serviceAccountMsg) ∧
    (get_id_token envNoSA initManager none).calls.countP NetCall.isIssuance = 0 ∧
    (get_id_token envNoSA initManager none).calls.countP NetCall.isCredCall = 0 ∧
    (get_id_token envNoSA initManager none).calls.countP NetCall.isSecret ≤ 1 :=
  c5_config_error_without_valid_cache envNoSA initManager none (.str "cid")
    rfl (by decide) rfl

theorem generate_id_token_no_secret (env : Env) (s : ManagerState) (a : Json) :
    (generate_id_token env s a).calls.countP NetCall.isSecret = 0 := by
  have hcnt := (get_application_credentials_calls_counts env s).2
  unfold generate_id_token
  split
  · rfl
  · rcases hg : get_application_credentials env s with ⟨resc, sc, callsc⟩
    rw [hg] at hcnt
    cases resc with
    | error e => exact hcnt
    | ok c =>
      simp only []
      have happ : (callsc ++ [NetCall.issuancePost a]).countP NetCall.isSecret = 0 := by
        rw [List.countP_append, hcnt]
        rfl
      split
      · split <;> simpa using happ
      · simpa using happ

/-- Counterexample to C7 as stated: the secret resolves successfully to
the empty string, which is memoized; but because the memoized value is
falsy, the next `get_id_token` call that needs the audience performs the
secret-manager lookup again. -/
theorem c7_counterexample :
    (get_id_token envEmptySecret initManager none).state.clientId = some (.str "") ∧
    (get_id_token envEmptySecret
        (get_id_token envEmptySecret initManager none).state none).calls.countP
      NetCall.isSecret = 1 :=
  ⟨rfl, rfl⟩

/-- Claim C7 (amended): once the audience resolves to a truthy value it is
memoized and no later `get_id_token` call performs a secret lookup or
changes the memo; a failed resolution leaves the memo unchanged, so the
next call retries; a successful resolution always memoizes its value
(though a falsy value, such as the empty string, is retried later). -/
theorem c7_audience_memoized_once (env : Env) (s : ManagerState) :
    (∀ c, s.clientId = some c → c.truthy = true →
      ∀ aud, (get_id_token env s aud).calls.countP NetCall.isSecret = 0 ∧
        (get_id_token env s aud).state.clientId = some c) ∧
    (∀ e, (client_id env s).res = .error e →
      (client_id env s).state.clientId = s.clientId) ∧
    (∀ v, (client_id env s).res = .ok v →
      (client_id env s).state.clientId = some v) := by
  refine ⟨?_, ?_, ?_⟩
  · intro c hc ht aud
    have hresolve : resolve_audience env s aud = ⟨.ok (aud.getD c), s, []⟩ := by
      cases aud with
      | some a => rfl
      | none =>
        unfold resolve_audience client_id
        rw [hc]
        simp [ht]
    unfold get_id_token
    rw [hresolve]
    simp only []
    by_cases hv : has_valid_cached_token env s
    · simp only [hv, if_true]
      exact ⟨rfl, hc⟩
    · simp only [hv, Bool.false_eq_true, if_false]
      have hsec := generate_id_token_no_secret env s (aud.getD c)
      have hflds := generate_id_token_other_fields env s (aud.getD c)
      rcases hg : generate_id_token env s (aud.getD c) with ⟨res2, s2, calls2⟩
      rw [hg] at hsec hflds
      try rw [hg]
      have hcl2 : s2.clientId = some c := by rw [hflds.2.2, hc]
      cases res2 with
      | error e2 => exact ⟨by simpa using hsec, hcl2⟩
      | ok p =>
        rcases p with ⟨tok, exp⟩
        exact ⟨by simpa using hsec, hcl2⟩
  · intro e he
    unfold client_id at he ⊢
    cases hc : s.clientId with
    | none =>
      rw [hc] at he
      unfold client_id_resolve at he ⊢
      rcases hg : get_client_id_from_secret env s with ⟨resg, callsg⟩
      rw [hg] at he
      try rw [hg]
      cases resg with
      | error e2 => exact hc
      | ok v => simp at he
    | some c =>
      rw [hc] at he
      cases ht : c.truthy with
      | true => simp [ht] at he
      | false =>
        simp only [ht, Bool.false_eq_true, if_false] at he ⊢
        unfold client_id_resolve at he ⊢
        rcases hg : get_client_id_from_secret env s with ⟨resg, callsg⟩
        rw [hg] at he
        try rw [hg]
        cases resg with
        | error e2 => exact hc
        | ok v => simp at he
  · intro v hv
    unfold client_id at hv ⊢
    cases hc : s.clientId with
    | none =>
      rw [hc] at hv
      unfold client_id_resolve at hv ⊢
      rcases hg : get_client_id_from_secret env s with ⟨resg, callsg⟩
      rw [hg] at hv
      try rw [hg]
      cases resg with
      | error e2 => simp at hv
      | ok v2 =>
        simp only [Except.ok.injEq] at hv
        subst hv
        rfl
    | some c =>
      rw [hc] at hv
      cases ht : c.truthy with
      | true =>
        simp only [ht, if_true] at hv ⊢
        simp only [Except.ok.injEq] at hv
        rw [hc, hv]
      | false =>
        simp only [ht, Bool.false_eq_true, if_false] at hv ⊢
        unfold client_id_resolve at hv ⊢
        rcases hg : get_client_id_from_secret env s with ⟨resg, callsg⟩
        rw [hg] at hv
        try rw [hg]
        cases resg with
        | error e2 => simp at hv
        | ok v2 =>
          simp only [Except.ok.injEq] at hv
          subst hv
          rfl

/-- Witness for the amended C7 at concrete inputs. -/
theorem c7_audience_memoized_once_witness :
    (get_id_token envOk sCachedMemo none).calls.countP NetCall.isSecret = 0 ∧
    (get_id_token envOk sCachedMemo none).state.clientId = some (.str "cid") :=
  (c7_audience_memoized_once envOk sCachedMemo).1 (.str "cid") rfl (by decide) none

/-- Counterexample to C6 as stated: a payload parsing to the JSON object
with key `web` mapped to an empty object matches none of the three
preferred patterns, so the claim prescribes falling back to the raw
payload string; the code instead raises `KeyError` from
`secret_json["web"]["client_id"]`. -/
theorem c6_counterexample :
    (access_client_id_secret envWebEmpty).1 = .error (.keyError "client_id") ∧
    ∀ r, (access_client_id_secret envWebEmpty).1 ≠ .ok r := by
  refine ⟨rfl, ?_⟩
  intro r h
  rw [show (access_client_id_secret envWebEmpty).1 = .error (.keyError "client_id")
    from rfl] at h
  exact Except.noConfusion h

/-- Claim C6 (amended): the stripped secret payload is parsed in order of
preference: a JSON object with key `client_id` yields that value; else if
key `web` is present, its value is subscripted with `client_id` (yielding
the nested value, a `KeyError` when the object lacks it, a `TypeError`
when the value is not an object); else likewise for `installed`; in every
other case (parse failure, non-object JSON, or an object with none of the
three keys) the stripped payload string itself is the audience. -/
theorem c6_audience_parsing (env : Env) (d : String) :
    (env.jsonParse d = none → parse_secret_data env d = .ok (.str d)) ∧
    (∀ fs v, env.jsonParse d = some (.obj fs) → lookupKey fs "client_id" = some v →
      parse_secret_data env d = .ok v) ∧
    (∀ fs w, env.jsonParse d = some (.obj fs) → lookupKey fs "client_id" = none →
      lookupKey fs "web" = some w → parse_secret_data env d = nested_client_id w) ∧
    (∀ fs w, env.jsonParse d = some (.obj fs) → lookupKey fs "client_id" = none →
      lookupKey fs "web" = none → lookupKey fs "installed" = some w →
      parse_secret_data env d = nested_client_id w) ∧
    (∀ fs, env.jsonParse d = some (.obj fs) → lookupKey fs "client_id" = none →
      lookupKey fs "web" = none → lookupKey fs "installed" = none →
      parse_secret_data env d = .ok (.str d)) ∧
    (∀ s0, env.jsonParse d = some (.str s0) → parse_secret_data env d = .ok (.str d)) ∧
    (∀ b, env.jsonParse d = some (.other b) → parse_secret_data env d = .ok (.str d)) ∧
    (∀ ws v, lookupKey ws "client_id" = some v →
      nested_client_id (.obj ws) = .ok v) ∧
    (∀ ws, lookupKey ws "client_id" = none →
      nested_client_id (.obj ws) = .error (.keyError "client_id")) ∧
    (∀ s0 b, nested_client_id (.str s0) = .error .typeError ∧
      nested_client_id (.other b) = .error .typeError) ∧
    (∀ p, settingUnset env.secretVersion = false → env.secretAccess = .ok p →
      access_client_id_secret env =
        (parse_secret_data env (pyStrip p), [NetCall.secretAccess])) := by
  refine ⟨?_, ?_, ?_, ?_, ?_, ?_, ?_, ?_, ?_, ?_, ?_⟩
  · intro h
    unfold parse_secret_data
    rw [h]
  · intro fs v hp hk
    unfold parse_secret_data
    rw [hp]
    simp [hk]
  · intro fs w hp hk hw
    unfold parse_secret_data
    rw [hp]
    simp [hk, hw]
  · intro fs w hp hk hw hi
    unfold parse_secret_data
    rw [hp]
    simp [hk, hw, hi]
  · intro fs hp hk hw hi
    unfold parse_secret_data
    rw [hp]
    simp [hk, hw, hi]
  · intro s0 hp
    unfold parse_secret_data
    rw [hp]
  · intro b hp
    unfold parse_secret_data
    rw [hp]
  · intro ws v hk
    unfold nested_client_id
    simp [hk]
  · intro ws hk
    unfold nested_client_id
    simp [hk]
  · intro s0 b
    exact ⟨rfl, rfl⟩
  · intro p hver hacc
    unfold access_client_id_secret
    rw [hver, hacc]
    simp

/-- Witness for the amended C6: the payload of `envParse` parses to an
object with key `client_id` mapped to `abc`, and the audience is `abc`. -/
theorem c6_audience_parsing_witness :
    parse_secret_data envParse "\x7b\"client_id\": \"abc\"\x7d" = .ok (.str "abc") :=
  (c6_audience_parsing envParse "\x7b\"client_id\": \"abc\"\x7d").2.1
    [("client_id", .str "abc")] (.str "abc") rfl rfl

theorem generate_id_token_ok_issuance_count (env : Env) (s : ManagerState) (a : Json)
    (tok : String) (exp : Int)
    (h : (generate_id_token env s a).res = .ok (tok, exp)) :
    (generate_id_token env s a).calls.countP NetCall.isIssuance = 1 := by
  have hcnt := (get_application_credentials_calls_counts env s).1
  unfold generate_id_token at h ⊢
  split at h
  · exact absurd h (by simp)
  · rename_i hsa
    rw [if_neg hsa]
    rcases hg : get_application_credentials env s with ⟨resc, sc, callsc⟩
    rw [hg] at h hcnt
    try rw [hg]
    cases resc with
    | error e => exact absurd h (by simp)
    | ok c =>
      have happ : (callsc ++ [NetCall.issuancePost a]).countP NetCall.isIssuance = 1 := by
        rw [List.countP_append, hcnt]
        rfl
      simp only []
      split
      · split <;> simpa using happ
      · simpa using happ

theorem get_id_token_empty_cache_ok_issuance (env : Env) (s : ManagerState)
    (aud : Option Json) (t : String) (hc : s.cachedToken = none)
    (h : (get_id_token env s aud).res = .ok t) :
    (get_id_token env s aud).calls.countP NetCall.isIssuance = 1 := by
  have hres := resolve_audience_cache_fields env s aud
  have hcalls := resolve_audience_calls_cases env s aud
  unfold get_id_token at h ⊢
  rcases hr : resolve_audience env s aud with ⟨res1, s1, calls1⟩
  rw [hr] at h hres hcalls
  cases res1 with
  | error e1 => simp at h
  | ok a1 =>
    have hv : has_valid_cached_token env s1 = false := by
      unfold has_valid_cached_token token_reuse_ok
      rw [hres.1, hc]
    simp only [hv, Bool.false_eq_true, if_false] at h ⊢
    have hcnt1 : calls1.countP NetCall.isIssuance = 0 := by
      rcases hcalls with hx | hx <;>
        · have hx2 : calls1 = _ := hx
          rw [hx2]
          rfl
    rcases hg : generate_id_token env s1 a1 with ⟨res2, s2, calls2⟩
    rw [hg] at h
    try rw [hg]
    cases res2 with
    | error e2 => simp at h
    | ok p =>
      rcases p with ⟨tok, exp⟩
      have hgi := generate_id_token_ok_issuance_count env s1 a1 tok exp (by rw [hg])
      rw [hg] at hgi
      simpa [List.countP_append, hcnt1] using hgi

theorem getHeader_setHeader (hs : List (String × String)) (n v : String) :
    getHeader (setHeader hs n v) n = some v := by
  unfold getHeader setHeader
  induction hs with
  | nil => simp [lookupKey]
  | cons p rest ih =>
    by_cases hp : p.1 = n
    · simpa [List.filter_cons, hp] using ih
    · simpa [List.filter_cons, hp, lookupKey] using ih

theorem events_net_countP (calls : List NetCall) :
    (calls.map FlowEv.net).countP FlowEv.isSent = 0 ∧
    (calls.map FlowEv.net).countP FlowEv.isCleared = 0 ∧
    (calls.map FlowEv.net).countP FlowEv.isIssuanceEv =
      calls.countP NetCall.isIssuance := by
  induction calls with
  | nil => exact ⟨rfl, rfl, rfl⟩
  | cons c rest ih =>
    refine ⟨?_, ?_, ?_⟩ <;>
      simp [List.countP_cons, FlowEv.isSent, FlowEv.isCleared, FlowEv.isIssuanceEv,
        ih.1, ih.2.1, ih.2.2]

theorem afterCleared_of_no_cleared (l rest : List FlowEv)
    (h : ∀ e ∈ l, e.isCleared = false) :
    afterCleared (l ++ FlowEv.cleared :: rest) = rest := by
  induction l with
  | nil => rfl
  | cons e l2 ih =>
    have he := h e (by simp)
    simp only [List.cons_append, afterCleared, he, Bool.false_eq_true, if_false]
    exact ih (fun x hx => h x (by simp [hx]))

theorem sync_auth_flow_eq_no401 (env : Env) (send : Nat → Request → Response)
    (headerName : String) (s : ManagerState) (req : Request) (tok1 : String)
    (s1 : ManagerState) (calls1 : List NetCall)
    (h1 : get_id_token env s none = ⟨.ok tok1, s1, calls1⟩)
    (hne : (send 0 ⟨setHeader req.headers headerName ("Bearer " ++ tok1)⟩).status ≠ 401) :
    sync_auth_flow env send headerName s req =
      ⟨.ok (send 0 ⟨setHeader req.headers headerName ("Bearer " ++ tok1)⟩), s1,
        ⟨setHeader req.headers headerName ("Bearer " ++ tok1)⟩,
        calls1.map FlowEv.net ++
          [FlowEv.sent (setHeader req.headers headerName ("Bearer " ++ tok1))
            (send 0 ⟨setHeader req.headers headerName ("Bearer " ++ tok1)⟩)]⟩ := by
  unfold sync_auth_flow
  rw [h1]
  simp only []
  rw [if_neg hne]

theorem sync_auth_flow_eq_401_err (env : Env) (send : Nat → Request → Response)
    (headerName : String) (s : ManagerState) (req : Request) (tok1 : String)
    (s1 : ManagerState) (calls1 : List NetCall) (e : AuthError) (s3 : ManagerState)
    (calls2 : List NetCall)
    (h1 : get_id_token env s none = ⟨.ok tok1, s1, calls1⟩)
    (h401 : (send 0 ⟨setHeader req.headers headerName ("Bearer " ++ tok1)⟩).status = 401)
    (h2 : get_id_token env { s1 with cachedToken := none, tokenExpiry := 0 } none =
      ⟨.error e, s3, calls2⟩) :
    sync_auth_flow env send headerName s req =
      ⟨.error e, s3, ⟨setHeader req.headers headerName ("Bearer " ++ tok1)⟩,
        (calls1.map FlowEv.net ++
          [FlowEv.sent (setHeader req.headers headerName ("Bearer " ++ tok1))
            (send 0 ⟨setHeader req.headers headerName ("Bearer " ++ tok1)⟩)]) ++
          [FlowEv.cleared] ++ calls2.map FlowEv.net⟩ := by
  unfold sync_auth_flow
  rw [h1]
  simp only []
  rw [if_pos h401]
  simp only [clear_cached_token]
  rw [h2]

theorem sync_auth_flow_eq_401_ok (env : Env) (send : Nat → Request → Response)
    (headerName : String) (s : ManagerState) (req : Request) (tok1 : String)
    (s1 : ManagerState) (calls1 : List NetCall) (tok2 : String) (s3 : ManagerState)
    (calls2 : List NetCall)
    (h1 : get_id_token env s none = ⟨.ok tok1, s1, calls1⟩)
    (h401 : (send 0 ⟨setHeader req.headers headerName ("Bearer " ++ tok1)⟩).status = 401)
    (h2 : get_id_token env { s1 with cachedToken := none, tokenExpiry := 0 } none =
      ⟨.ok tok2, s3, calls2⟩) :
    sync_auth_flow env send headerName s req =
      ⟨.ok (send 1 ⟨setHeader
          (setHeader req.headers headerName ("Bearer " ++ tok1)) headerName
          ("Bearer " ++ tok2)⟩), s3,
        ⟨setHeader (setHeader req.headers headerName ("Bearer " ++ tok1)) headerName
          ("Bearer " ++ tok2)⟩,
        (calls1.map FlowEv.net ++
          [FlowEv.sent (setHeader req.headers headerName ("Bearer " ++ tok1))
            (send 0 ⟨setHeader req.headers headerName ("Bearer " ++ tok1)⟩)]) ++
          [FlowEv.cleared] ++ calls2.map FlowEv.net ++
          [FlowEv.sent (setHeader
              (setHeader req.headers headerName ("Bearer " ++ tok1)) headerName
              ("Bearer " ++ tok2))
            (send 1 ⟨setHeader
              (setHeader req.headers headerName ("Bearer " ++ tok1)) headerName
              ("Bearer " ++ tok2)⟩)]⟩ := by
  unfold sync_auth_flow
  rw [h1]
  simp only []
  rw [if_pos h401]
  simp only [clear_cached_token]
  rw [h2]

/-- Counterexample to C2 as stated: the first response is a 401 and the
cache is invalidated, but the re-acquisition of a token fails (the
impersonation setting is unset once the cached token is gone), so the
request is dispatched only once — there is no second dispatch, and the
flow raises instead of returning a second response. -/
theorem c2_counterexample :
    (sync_auth_flow envNoSA (fun _ _ => ⟨401, "denied"⟩) "Authorization" sCachedMemo
        ⟨[]⟩).events.countP FlowEv.isCleared = 1 ∧
    (sync_auth_flow envNoSA (fun _ _ => ⟨401, "denied"⟩) "Authorization" sCachedMemo
        ⟨[]⟩).res = .error (.valueError serviceAccountMsg) ∧
    (sync_auth_flow envNoSA (fun _ _ => ⟨401, "denied"⟩) "Authorization" sCachedMemo
        ⟨[]⟩).events.countP FlowEv.isSent = 1 :=
  ⟨rfl, rfl, rfl⟩

/-- Claim C2 (amended): a first response other than 401 is returned as-is
with no invalidation and no retry; a first 401 causes exactly one
invalidation and one token re-acquisition attempt — when the
re-acquisition succeeds the bearer header is re-set, the request is
dispatched exactly once more (with exactly one issuance call after the
invalidation) and the second response is returned as-is with no third
attempt; when it fails, the error propagates and no second dispatch
happens.  The async flow computes exactly the sync flow. -/
theorem c2_single_retry_contract (env : Env) (send : Nat → Request → Response)
    (headerName : String) (s : ManagerState) (req : Request) (tok1 : String)
    (hget : (get_id_token env s none).res = .ok tok1) :
    ((send 0 ⟨setHeader req.headers headerName ("Bearer " ++ tok1)⟩).status ≠ 401 →
      (sync_auth_flow env send headerName s req).res =
          .ok (send 0 ⟨setHeader req.headers headerName ("Bearer " ++ tok1)⟩) ∧
      (sync_auth_flow env send headerName s req).events.countP FlowEv.isCleared = 0 ∧
      (sync_auth_flow env send headerName s req).events.countP FlowEv.isSent = 1) ∧
    ((send 0 ⟨setHeader req.headers headerName ("Bearer " ++ tok1)⟩).status = 401 →
      (sync_auth_flow env send headerName s req).events.countP FlowEv.isCleared = 1 ∧
      (∀ e, (sync_auth_flow env send headerName s req).res = .error e →
        (sync_auth_flow env send headerName s req).events.countP FlowEv.isSent = 1) ∧
      (∀ tok2,
        (get_id_token env (clear_cached_token (get_id_token env s none).state).1 none).res
            = .ok tok2 →
        (sync_auth_flow env send headerName s req).res =
            .ok (send 1 ⟨setHeader
              (setHeader req.headers headerName ("Bearer " ++ tok1)) headerName
              ("Bearer " ++ tok2)⟩) ∧
        getHeader (sync_auth_flow env send headerName s req).req.headers headerName =
            some ("Bearer " ++ tok2) ∧
        (sync_auth_flow env send headerName s req).events.countP FlowEv.isSent = 2 ∧
        (afterCleared (sync_auth_flow env send headerName s req).events).countP
            FlowEv.isIssuanceEv = 1)) ∧
    async_auth_flow env send headerName s req = sync_auth_flow env send headerName s req := by
  rcases h1 : get_id_token env s none with ⟨res1, s1, calls1⟩
  rw [h1] at hget
  cases res1 with
  | error e => simp at hget
  | ok t1 =>
    simp only [Except.ok.injEq] at hget
    subst hget
    refine ⟨?_, ?_, ?_⟩
    · intro hne
      rw [sync_auth_flow_eq_no401 env send headerName s req t1 s1 calls1 h1 hne]
      refine ⟨rfl, ?_, ?_⟩ <;>
        simp [List.countP_append, List.countP_cons, FlowEv.isCleared, FlowEv.isSent,
          (events_net_countP calls1).1, (events_net_countP calls1).2.1]
    · intro h401
      rcases h2 : get_id_token env { s1 with cachedToken := none, tokenExpiry := 0 } none
        with ⟨res2, s3, calls2⟩
      cases res2 with
      | error e2 =>
        rw [sync_auth_flow_eq_401_err env send headerName s req t1 s1 calls1 e2 s3 calls2
          h1 h401 h2]
        refine ⟨?_, ?_, ?_⟩
        · simp [List.countP_append, List.countP_cons, FlowEv.isCleared,
            (events_net_countP calls1).2.1, (events_net_countP calls2).2.1]
        · intro e he
          simp [List.countP_append, List.countP_cons, FlowEv.isSent,
            (events_net_countP calls1).1, (events_net_countP calls2).1]
        · intro tok2 htok2
          have htok3 : (get_id_token env { s1 with cachedToken := none, tokenExpiry := 0 }
              none).res = Except.ok tok2 := htok2
          rw [h2] at htok3
          simp at htok3
      | ok t2 =>
        rw [sync_auth_flow_eq_401_ok env send headerName s req t1 s1 calls1 t2 s3 calls2
          h1 h401 h2]
        refine ⟨?_, ?_, ?_⟩
        · simp [List.countP_append, List.countP_cons, FlowEv.isCleared,
            (events_net_countP calls1).2.1, (events_net_countP calls2).2.1]
        · intro e he
          simp at he
        · intro tok2 htok2
          have htok3 : (get_id_token env { s1 with cachedToken := none, tokenExpiry := 0 }
              none).res = Except.ok tok2 := htok2
          rw [h2] at htok3
          simp only [Except.ok.injEq] at htok3
          obtain rfl : t2 = tok2 := htok3
          have hiss : calls2.countP NetCall.isIssuance = 1 := by
            have := get_id_token_empty_cache_ok_issuance env
              { s1 with cachedToken := none, tokenExpiry := 0 } none t2 rfl (by rw [h2])
            rw [h2] at this
            exact this
          refine ⟨rfl, getHeader_setHeader _ _ _, ?_, ?_⟩
          · simp [List.countP_append, List.countP_cons, FlowEv.isSent,
              (events_net_countP calls1).1, (events_net_countP calls2).1]
          · have hnc : ∀ e ∈ (calls1.map FlowEv.net ++
                [FlowEv.sent (setHeader req.headers headerName ("Bearer " ++ t1))
                  (send 0 ⟨setHeader req.headers headerName ("Bearer " ++ t1)⟩)]),
                e.isCleared = false := by
              intro e he
              rcases List.mem_append.1 he with he | he
              · rcases List.mem_map.1 he with ⟨c, _, rfl⟩
                rfl
              · simp only [List.mem_singleton] at he
                subst he
                rfl
            rw [show ((calls1.map FlowEv.net ++
                [FlowEv.sent (setHeader req.headers headerName ("Bearer " ++ t1))
                  (send 0 ⟨setHeader req.headers headerName ("Bearer " ++ t1)⟩)]) ++
                [FlowEv.cleared] ++ calls2.map FlowEv.net ++
                [FlowEv.sent (setHeader
                    (setHeader req.headers headerName ("Bearer " ++ t1)) headerName
                    ("Bearer " ++ t2))
                  (send 1 ⟨setHeader
                    (setHeader req.headers headerName ("Bearer " ++ t1)) headerName
                    ("Bearer " ++ t2)⟩)]) =
              ((calls1.map FlowEv.net ++
                [FlowEv.sent (setHeader req.headers headerName ("Bearer " ++ t1))
                  (send 0 ⟨setHeader req.headers headerName ("Bearer " ++ t1)⟩)]) ++
                (FlowEv.cleared :: (calls2.map FlowEv.net ++
                  [FlowEv.sent (setHeader
                      (setHeader req.headers headerName ("Bearer " ++ t1)) headerName
                      ("Bearer " ++ t2))
                    (send 1 ⟨setHeader
                      (setHeader req.headers headerName ("Bearer " ++ t1)) headerName
                      ("Bearer " ++ t2)⟩)]))) from by simp]
            rw [afterCleared_of_no_cleared _ _ hnc]
            simp [List.countP_append, List.countP_cons, FlowEv.isIssuanceEv,
              (events_net_countP calls2).2.2, hiss]
    · rfl

/-- Witness for the amended C2: both responses are 401, the cache is
invalidated once, and exactly two dispatches happen. -/
theorem c2_single_retry_contract_witness :
    (sync_auth_flow envOk (fun _ _ => ⟨401, "denied"⟩) "Authorization" sCachedMemo
        ⟨[]⟩).events.countP FlowEv.isCleared = 1 ∧
    (sync_auth_flow envOk (fun _ _ => ⟨401, "denied"⟩) "Authorization" sCachedMemo
        ⟨[]⟩).events.countP FlowEv.isSent = 2 :=
  have h := (c2_single_retry_contract envOk (fun _ _ => ⟨401, "denied"⟩) "Authorization"
    sCachedMemo ⟨[]⟩ "tok" rfl).2.1 rfl
  ⟨h.1, (h.2.2 "newtok" rfl).2.2.1⟩

theorem concInv_init (kinds : List Bool) (tok : String) (now : Int) :
    ConcInv kinds tok now (initCState kinds tok) := by
  refine ⟨by simp [initCState], fun _ => rfl, ?_, ?_, ?_, ?_, ?_⟩
  · intro t e hc
    simp [initCState] at hc
  · intro i hi
    rcases hi with hi | hi <;>
      · simp only [initCState] at hi
        split at hi
        · split at hi <;> simp at hi
        · simp at hi
  · intro i hi
    simp only [initCState] at hi
    split at hi
    · split at hi <;> simp at hi
    · simp at hi
  · intro i r hr
    simp only [initCState] at hr
    split at hr
    · split at hr <;> simp at hr
    · simp only [Phase.finished.injEq] at hr
      exact hr.symm
  · intro i hilen r hr
    simp only [initCState] at hr
    rw [if_pos hilen] at hr
    split at hr <;> simp at hr

theorem concInv_step (kinds : List Bool) (tok : String) (now : Int) (htok : tok ≠ "")
    (st : CState) (i : Nat) (h : ConcInv kinds tok now st) :
    ConcInv kinds tok now (stepThread kinds tok now st i) := by
  obtain ⟨h1, h2, h3, h4, h5, h6, h7⟩ := h
  cases hp : st.phases i with
  | wantAsyncLock =>
    cases ho : st.asyncOwner with
    | some a =>
      have hstep : stepThread kinds tok now st i = st := by
        unfold stepThread
        rw [hp, ho]
      rw [hstep]
      exact ⟨h1, h2, h3, h4, h5, h6, h7⟩
    | none =>
      have hstep : stepThread kinds tok now st i =
          { st with asyncOwner := some i
                    phases := Function.update st.phases i .wantSyncLock } := by
        unfold stepThread
        rw [hp, ho]
      rw [hstep]
      refine ⟨h1, h2, h3, ?_, ?_, ?_, ?_⟩
      · intro j hj
        by_cases hji : j = i
        · subst hji
          simp only [Function.update_same] at hj
          rcases hj with hj | hj <;> exact Phase.noConfusion hj
        · simp only [Function.update_noteq hji] at hj
          exact h4 j hj
      · intro j hj
        by_cases hji : j = i
        · subst hji
          simp only [Function.update_same] at hj
          exact Phase.noConfusion hj
        · simp only [Function.update_noteq hji] at hj
          exact h5 j hj
      · intro j r hr
        by_cases hji : j = i
        · subst hji
          simp only [Function.update_same] at hr
          exact Phase.noConfusion hr
        · simp only [Function.update_noteq hji] at hr
          exact h6 j r hr
      · intro j hjlen r hr
        by_cases hji : j = i
        · subst hji
          simp only [Function.update_same] at hr
          exact Phase.noConfusion hr
        · simp only [Function.update_noteq hji] at hr
          exact h7 j hjlen r hr
  | wantSyncLock =>
    cases ho : st.syncOwner with
    | some a =>
      have hstep : stepThread kinds tok now st i = st := by
        unfold stepThread
        rw [hp, ho]
      rw [hstep]
      exact ⟨h1, h2, h3, h4, h5, h6, h7⟩
    | none =>
      have hstep : stepThread kinds tok now st i =
          { st with syncOwner := some i
                    phases := Function.update st.phases i .checkCache } := by
        unfold stepThread
        rw [hp, ho]
      rw [hstep]
      refine ⟨h1, h2, h3, ?_, ?_, ?_, ?_⟩
      · intro j hj
        by_cases hji : j = i
        · subst hji
          rfl
        · simp only [Function.update_noteq hji] at hj
          have hcontra := h4 j hj
          rw [ho] at hcontra
          exact Option.noConfusion hcontra
      · intro j hj
        by_cases hji : j = i
        · subst hji
          simp only [Function.update_same] at hj
          exact Phase.noConfusion hj
        · simp only [Function.update_noteq hji] at hj
          exact h5 j hj
      · intro j r hr
        by_cases hji : j = i
        · subst hji
          simp only [Function.update_same] at hr
          exact Phase.noConfusion hr
        · simp only [Function.update_noteq hji] at hr
          exact h6 j r hr
      · intro j hjlen r hr
        by_cases hji : j = i
        · subst hji
          simp only [Function.update_same] at hr
          exact Phase.noConfusion hr
        · simp only [Function.update_noteq hji] at hr
          exact h7 j hjlen r hr
  | checkCache =>
    have hsync := h4 i (Or.inl hp)
    cases hc : st.cache with
    | some p =>
      rcases p with ⟨t, e⟩
      obtain ⟨ht1, he, hiss1⟩ := h3 t e hc
      have hstep : stepThread kinds tok now st i =
          if token_reuse_ok now (some t) e = true then finishThread kinds st i t
          else { st with phases := Function.update st.phases i .refreshing } := by
        unfold stepThread
        rw [hp, hc]
      have hcond : token_reuse_ok now (some t) e = true := by
        rw [ht1, he]
        have htr : pyStrTruthy tok = true := by simp [pyStrTruthy, htok]
        have hexp : is_token_expired_at now (now + 3600) = false := by
          simp only [is_token_expired_at, decide_eq_false_iff_not]
          omega
        simp [token_reuse_ok, htr, hexp]
      rw [hstep, if_pos hcond]
      unfold finishThread
      refine ⟨h1, h2, h3, ?_, ?_, ?_, ?_⟩
      · intro j hj
        by_cases hji : j = i
        · subst hji
          simp only [Function.update_same] at hj
          rcases hj with hj | hj <;> exact Phase.noConfusion hj
        · simp only [Function.update_noteq hji] at hj
          have hcontra := h4 j hj
          rw [hsync] at hcontra
          injection hcontra with hcontra
          exact absurd hcontra.symm hji
      · intro j hj
        by_cases hji : j = i
        · subst hji
          simp only [Function.update_same] at hj
          exact Phase.noConfusion hj
        · simp only [Function.update_noteq hji] at hj
          exact absurd (h5 j hj) (by simp [hc])
      · intro j r hr
        by_cases hji : j = i
        · subst hji
          simp only [Function.update_same, Phase.finished.injEq] at hr
          exact hr.symm.trans ht1
        · simp only [Function.update_noteq hji] at hr
          exact h6 j r hr
      · intro j hjlen r hr
        exact hiss1
    | none =>
      have hstep : stepThread kinds tok now st i =
          { st with phases := Function.update st.phases i .refreshing } := by
        unfold stepThread
        rw [hp, hc]
      rw [hstep]
      refine ⟨h1, h2, h3, ?_, ?_, ?_, ?_⟩
      · intro j hj
        by_cases hji : j = i
        · subst hji
          exact hsync
        · simp only [Function.update_noteq hji] at hj
          exact h4 j hj
      · intro j hj
        exact hc
      · intro j r hr
        by_cases hji : j = i
        · subst hji
          simp only [Function.update_same] at hr
          exact Phase.noConfusion hr
        · simp only [Function.update_noteq hji] at hr
          exact h6 j r hr
      · intro j hjlen r hr
        by_cases hji : j = i
        · subst hji
          simp only [Function.update_same] at hr
          exact Phase.noConfusion hr
        · simp only [Function.update_noteq hji] at hr
          exact h7 j hjlen r hr
  | refreshing =>
    have hsync := h4 i (Or.inr hp)
    have hcache := h5 i hp
    have hiss0 := h2 hcache
    have hstep : stepThread kinds tok now st i =
        { syncOwner := none
          asyncOwner := if kinds.getD i false then none else st.asyncOwner
          cache := some (tok, now + 3600)
          issuances := st.issuances + 1
          phases := Function.update st.phases i (.finished tok) } := by
      unfold stepThread
      rw [hp]
    rw [hstep]
    refine ⟨?_, ?_, ?_, ?_, ?_, ?_, ?_⟩
    · simp [hiss0]
    · intro hnone
      exact Option.noConfusion hnone
    · intro t e hce
      simp only [Option.some.injEq, Prod.mk.injEq] at hce
      exact ⟨hce.1.symm, hce.2.symm, by simp [hiss0]⟩
    · intro j hj
      by_cases hji : j = i
      · subst hji
        simp only [Function.update_same] at hj
        rcases hj with hj | hj <;> exact Phase.noConfusion hj
      · simp only [Function.update_noteq hji] at hj
        have hcontra := h4 j hj
        rw [hsync] at hcontra
        injection hcontra with hcontra
        exact absurd hcontra.symm hji
    · intro j hj
      by_cases hji : j = i
      · subst hji
        simp only [Function.update_same] at hj
        exact Phase.noConfusion hj
      · simp only [Function.update_noteq hji] at hj
        have hcontra := h4 j (Or.inr hj)
        rw [hsync] at hcontra
        injection hcontra with hcontra
        exact absurd hcontra.symm hji
    · intro j r hr
      by_cases hji : j = i
      · subst hji
        simp only [Function.update_same, Phase.finished.injEq] at hr
        exact hr.symm
      · simp only [Function.update_noteq hji] at hr
        exact h6 j r hr
    · intro j hjlen r hr
      simp [hiss0]
  | finished r =>
    have hstep : stepThread kinds tok now st i = st := by
      unfold stepThread
      rw [hp]
    rw [hstep]
    exact ⟨h1, h2, h3, h4, h5, h6, h7⟩

theorem concInv_run (kinds : List Bool) (tok : String) (now : Int) (htok : tok ≠ "")
    (sched : List Nat) : ConcInv kinds tok now (runSched kinds tok now sched) := by
  unfold runSched
  have key : ∀ st, ConcInv kinds tok now st →
      ConcInv kinds tok now (sched.foldl (stepThread kinds tok now) st) := by
    induction sched with
    | nil => intro st h; exact h
    | cons a l ih =>
      intro st h
      exact ih _ (concInv_step kinds tok now htok st a h)
  exact key _ (concInv_init kinds tok now)

/-- Claim C1: in every interleaving of any mix of blocking and
cooperative callers of `get_id_token` / `get_id_token_async` against the
shared empty cache with a working issuer, at most one caller is ever
mid-refresh (mutual exclusion of the refresh), at most one issuance call
happens in total, every caller that completes receives the issued token,
and when all callers complete the issuance happened exactly once. -/
theorem c1_single_flight (kinds : List Bool) (tok : String) (now : Int)
    (htok : tok ≠ "") :
    (∀ sched i j, (runSched kinds tok now sched).phases i = .refreshing →
      (runSched kinds tok now sched).phases j = .refreshing → i = j) ∧
    (∀ sched, (runSched kinds tok now sched).issuances ≤ 1) ∧
    (∀ sched i r, (runSched kinds tok now sched).phases i = .finished r → r = tok) ∧
    (∀ sched, 0 < kinds.length →
      (∀ i, i < kinds.length → ∃ r, (runSched kinds tok now sched).phases i = .finished r) →
      (runSched kinds tok now sched).issuances = 1) := by
  refine ⟨?_, ?_, ?_, ?_⟩
  · intro sched i j hi hj
    obtain ⟨h1, h2, h3, h4, h5, h6, h7⟩ := concInv_run kinds tok now htok sched
    have hii := h4 i (Or.inr hi)
    have hjj := h4 j (Or.inr hj)
    rw [hii] at hjj
    exact Option.some.inj hjj
  · intro sched
    exact (concInv_run kinds tok now htok sched).1
  · intro sched i r hr
    exact (concInv_run kinds tok now htok sched).2.2.2.2.2.1 i r hr
  · intro sched hlen hall
    obtain ⟨r, hr⟩ := hall 0 hlen
    exact (concInv_run kinds tok now htok sched).2.2.2.2.2.2 0 hlen r hr

/-- Witness for C1: one blocking and one cooperative caller, a schedule
in which both complete, exactly one issuance. -/
theorem c1_single_flight_witness :
    (("t" : String) ≠ "") ∧
    (runSched [false, true] "t" 0 [0, 0, 0, 1, 1, 1]).issuances = 1 :=
  ⟨by decide,
    (c1_single_flight [false, true] "t" 0 (by decide)).2.2.2 [0, 0, 0, 1, 1, 1]
      (by decide)
      (fun i hi =>
        match i, hi with
        | 0, _ => ⟨"t", rfl⟩
        | 1, _ => ⟨"t", rfl⟩)⟩

end IAP
